import Mathlib

/-!
Shallow embedding of the move-explanation core of the ChesskitGPT repository:
the explanation policy, the prompt/response codec, the remote-call adapter and
the batch dispatcher (src/lib/llm/moveExplainer.ts), together with the
game-to-requests adapter and statistics (src/lib/llm/gameExplanationService.ts).

External collaborators (the chess-rules library, the HTTP transport, the JSON
parser of the JavaScript runtime, the clock, and the win-percentage helper) are
modelled as explicit function parameters; numbers that the JavaScript code
handles as floating point are modelled as rationals, and integer centipawn /
mate values as integers.
-/

/-- The move classification tags (types/enums).  The string values of the enum
are used by the code in template strings and icon paths (such as
`/icons/best.png`), so each tag carries a lowercase label via
`classificationLabel` below. -/
inductive MoveClassification where
  | Opening
  | Forced
  | Splendid
  | Perfect
  | Best
  | Excellent
  | Okay
  | Inaccuracy
  | Mistake
  | Blunder
deriving DecidableEq, Inhabited

/-- The lowercase string value of a classification tag, as interpolated by the
source's template strings. -/
def classificationLabel : MoveClassification → String
  | .Opening => "opening"
  | .Forced => "forced"
  | .Splendid => "splendid"
  | .Perfect => "perfect"
  | .Best => "best"
  | .Excellent => "excellent"
  | .Okay => "okay"
  | .Inaccuracy => "inaccuracy"
  | .Mistake => "mistake"
  | .Blunder => "blunder"

/-- One scored engine line: an optional centipawn score and an optional mate
distance (the `{ mate?: number; cp?: number }` shape consumed by
`formatEvaluation`). -/
structure EvalLine where
  cp : Option Int := none
  mate : Option Int := none
deriving DecidableEq, Inhabited

/-- The per-position evaluation record (types/eval.ts `PositionEval`),
restricted to the fields the services under verification read. -/
structure PositionEval where
  bestMove : Option String := none
  opening : Option String := none
  moveClassification : Option MoveClassification := none
  lines : List EvalLine := []
deriving DecidableEq, Inhabited

/-- A full game evaluation trace (types/eval.ts `GameEval`), restricted to the
`positions` field the services read. -/
structure GameEval where
  positions : List PositionEval
deriving DecidableEq, Inhabited

/-- types/explanation.ts `ExplanationSettings`. -/
structure ExplanationSettings where
  maxLength : Nat
  explainExcellent : Bool
  explainOpening : Bool
  minEvalChange : ℚ
deriving DecidableEq

/-- The `DEFAULT_SETTINGS` constant of moveExplainer.ts. -/
def DEFAULT_SETTINGS : ExplanationSettings :=
  { maxLength := 150, explainExcellent := false, explainOpening := false, minEvalChange := 5 }

/-- types/explanation.ts `ExplanationRequest`. -/
structure ExplanationRequest where
  fen : String
  uciMove : String
  moveNumber : Nat
  positionEval : PositionEval
  previousPositionEval : Option PositionEval := none
  classification : MoveClassification
  opening : Option String := none
  previousWinPercentage : ℚ
  currentWinPercentage : ℚ
  isWhiteMove : Bool
deriving DecidableEq

/-- types/explanation.ts `MoveExplanation`. -/
structure MoveExplanation where
  move : String
  uciMove : String
  moveNumber : Nat
  explanation : String
  themes : List String
  classificationReason : String
  generatedAt : String
  version : String
deriving DecidableEq

/-- types/explanation.ts `BatchExplanationProgress`: the snapshot passed to the
`onProgress` callback. -/
structure BatchExplanationProgress where
  total : Nat
  completed : Nat
  current : Option String := none
  errors : List String
deriving DecidableEq

/-- Embedding of `MoveExplainerService.shouldExplainMove` (moveExplainer.ts).  Its guard
chain is translated if-for-if; the settings object is passed explicitly. -/
def shouldExplainMove (settings : ExplanationSettings)
    (classification : MoveClassification) (evalChange : ℚ) : Bool :=
  if classification ∈ [MoveClassification.Blunder, MoveClassification.Mistake,
      MoveClassification.Inaccuracy] then
    true
  else if classification ∈ [MoveClassification.Perfect, MoveClassification.Splendid] then
    true
  else if classification = MoveClassification.Best then
    true
  else if classification = MoveClassification.Excellent ∧ settings.explainExcellent = true then
    true
  else if classification = MoveClassification.Opening ∧ settings.explainOpening = true then
    true
  else if |evalChange| ≥ settings.minEvalChange then
    true
  else
    false

/-- The one-decimal rendering `(cp / 100).toFixed(1)` used by
`formatEvaluation`, for an integer centipawn score.  Decimal rounding is
modelled as round-half-away-from-zero; for the non-tie inputs that the
external engine produces this agrees with the JavaScript `toFixed` output
(ties sit on binary-float artifacts that no claim exercises). -/
def toFixed1 (cp : Int) : String :=
  let t := (cp.natAbs + 5) / 10
  let s := toString (t / 10) ++ "." ++ toString (t % 10)
  if cp < 0 then "-" ++ s else s

/-- Embedding of `MoveExplainerService.formatEvaluation` (moveExplainer.ts): mate distances
take priority, then centipawns with an explicit plus sign for positive
values, otherwise `"Unknown"`. -/
def formatEvaluation (line : EvalLine) : String :=
  match line.mate with
  | some m => "Mate in " ++ toString m.natAbs
  | none =>
    match line.cp with
    | some cp => (if 0 < cp then "+" else "") ++ toFixed1 cp
    | none => "Unknown"

/-- The shape a raw model reply must successfully decode to on the happy path
of `parseResponse`: `JSON.parse` succeeded and the `explanation` field is a
string (any other outcome throws inside the `try` and lands in the fallback).
`themes` and `reason` stay optional (`|| []` and `|| ""` defaults). -/
structure ParsedReply where
  explanation : String
  themes : Option (List String) := none
  reason : Option String := none

/-- Embedding of `MoveExplainerService.uciToAlgebraic` (moveExplainer.ts): the chess-rules
library is an external collaborator, passed in as `sanOracle`; both a failed
conversion and a thrown exception fall back to the raw UCI string. -/
def uciToAlgebraic (sanOracle : String → String → Option String)
    (uciMove fen : String) : String :=
  match sanOracle fen uciMove with
  | some san => san
  | none => uciMove

/-- Embedding of `MoveExplainerService.parseResponse` (moveExplainer.ts).  The JavaScript
runtime's `JSON.parse` plus dynamic field access is the external `jsonParse`
parameter; `now` stands for `new Date().toISOString()`. -/
def parseResponse (settings : ExplanationSettings)
    (sanOracle : String → String → Option String) (now : String)
    (jsonParse : String → Option ParsedReply)
    (content : String) (request : ExplanationRequest) : MoveExplanation :=
  match jsonParse content with
  | some parsed =>
    { move := uciToAlgebraic sanOracle request.uciMove request.fen
      uciMove := request.uciMove
      moveNumber := request.moveNumber
      explanation := parsed.explanation.take settings.maxLength
      themes := parsed.themes.getD []
      classificationReason := parsed.reason.getD ""
      generatedAt := now
      version := "1.0" }
  | none =>
    { move := uciToAlgebraic sanOracle request.uciMove request.fen
      uciMove := request.uciMove
      moveNumber := request.moveNumber
      explanation := content.take settings.maxLength
      themes := []
      classificationReason := "Move classified as " ++ classificationLabel request.classification
      generatedAt := now
      version := "1.0" }

/-- The part of the chat-completion HTTP response that `explainMove` reads:
`message.content` of the first choice, when present. -/
structure ChatMessageData where
  content : Option String := none
deriving DecidableEq

/-- One entry of the response's `choices` array. -/
structure ChatChoice where
  message : Option ChatMessageData := none
deriving DecidableEq

/-- The `fetch` outcome that `explainMove` inspects: `ok`, `status`,
`statusText` and the decoded JSON body's `choices`. -/
structure FetchResponse where
  ok : Bool
  status : Nat
  statusText : String
  choices : List ChatChoice := []
deriving DecidableEq

/-- JavaScript's `String.prototype.trim`: strip whitespace from both ends
(structurally recursive so that concrete inputs evaluate). -/
def jsTrim (s : String) : String :=
  ⟨((s.data.dropWhile Char.isWhitespace).reverse.dropWhile Char.isWhitespace).reverse⟩

/-- The access chain over `choices` (first choice, `message.content`, trimmed)
performed by `explainMove`. -/
def extractContent (resp : FetchResponse) : Option String :=
  (((resp.choices.head?).bind fun c => c.message).bind fun m => m.content).map fun s => jsTrim s

/-- The two failure sites of `explainMove`, as the spec's error taxonomy names
them; `message` recovers the exact `Error` message string the source throws,
which the batch dispatcher reads back via `error.message`. -/
inductive ExplainError where
  | remoteService (status : Nat) (statusText : String)
  | emptyResponse
deriving DecidableEq

/-- The `Error.message` string of each throw site in `explainMove`. -/
def ExplainError.message : ExplainError → String
  | .remoteService status statusText =>
      "OpenAI API error: " ++ toString status ++ " " ++ statusText
  | .emptyResponse => "No explanation generated"

/-- Embedding of `MoveExplainerService.explainMove` (moveExplainer.ts), with the single
HTTP round trip's outcome supplied as `resp`.  A non-success status fails
first; then missing or empty (after trim) content fails; otherwise the reply
is parsed. -/
def explainMove (settings : ExplanationSettings)
    (sanOracle : String → String → Option String) (now : String)
    (jsonParse : String → Option ParsedReply)
    (resp : FetchResponse) (request : ExplanationRequest) :
    Except ExplainError MoveExplanation :=
  if resp.ok = false then
    Except.error (ExplainError.remoteService resp.status resp.statusText)
  else
    match extractContent resp with
    | none => Except.error ExplainError.emptyResponse
    | some content =>
      if content = "" then Except.error ExplainError.emptyResponse
      else Except.ok (parseResponse settings sanOracle now jsonParse content request)

/-- The per-item closure inside `batchExplainMoves`: a success yields the
explanation, a failure yields `null` plus the formatted error string pushed
onto the shared error list (`Move ${moveNumber}: ${error.message}`). -/
def runItem (explain : ExplanationRequest → Except ExplainError MoveExplanation)
    (request : ExplanationRequest) : Option MoveExplanation × Option String :=
  match explain request with
  | Except.ok e => (some e, none)
  | Except.error err =>
      (none, some ("Move " ++ toString request.moveNumber ++ ": " ++ err.message))

/-- The mutable state of one `batchExplainMoves` run: the accumulated results,
error list and completed counter of the source, plus `trace`, which records
each `onProgress` invocation together with the result list at that moment
(newest last).  `trace` is observational instrumentation — the source calls
`onProgress` exactly where an entry is appended. -/
structure BatchState where
  results : List MoveExplanation
  errors : List String
  completed : Nat
  trace : List (BatchExplanationProgress × List MoveExplanation)
deriving DecidableEq

/-- The body of the per-result loop of `batchExplainMoves`: push a successful
result, bump `completed`, and invoke `onProgress` with the cumulative
snapshot. -/
def emitItem (total : Nat) (s : BatchState) (res : Option MoveExplanation) : BatchState :=
  let results :=
    match res with
    | some e => s.results ++ [e]
    | none => s.results
  let progress : BatchExplanationProgress :=
    { total := total
      completed := s.completed + 1
      current := res.map fun e => "Move " ++ toString e.moveNumber
      errors := s.errors }
  { results := results
    errors := s.errors
    completed := s.completed + 1
    trace := s.trace ++ [(progress, results)] }

/-- One window of `batchExplainMoves`: run every item of the window (all error
pushes happen while `Promise.all` is outstanding, hence before any progress
callback of the window), then walk the window's results in request order. -/
def processWindow (explain : ExplanationRequest → Except ExplainError MoveExplanation)
    (total : Nat) (s : BatchState) (batch : List ExplanationRequest) : BatchState :=
  let items := batch.map (runItem explain)
  let s1 : BatchState := { s with errors := s.errors ++ items.filterMap fun it => it.2 }
  items.foldl (fun st it => emitItem total st it.1) s1

/-- Consecutive windows of size `c` (fuel-indexed so the recursion is
structural; the fuel is always at least the list length at every call). -/
def windowsGo {α : Type} (c : Nat) : Nat → List α → List (List α)
  | _, [] => []
  | 0, _ :: _ => []
  | fuel + 1, x :: rest => (x :: rest.take (c - 1)) :: windowsGo c fuel (rest.drop (c - 1))

/-- The window decomposition `requests.slice(i, i + concurrency)` of the
source's `for` loop.  With `c = 0` the source loop would never terminate, so
the embedding guards that unreachable case with the empty decomposition. -/
def windows {α : Type} (c : Nat) (xs : List α) : List (List α) :=
  if c = 0 then [] else windowsGo c xs.length xs

/-- The initial dispatcher state. -/
def initialBatchState : BatchState :=
  { results := [], errors := [], completed := 0, trace := [] }

/-- Embedding of `MoveExplainerService.batchExplainMoves` (moveExplainer.ts), returning the
full final state; the inter-window 100 ms pause is a real-time effect with no
observable data content and is not modelled. -/
def batchRun (explain : ExplanationRequest → Except ExplainError MoveExplanation)
    (requests : List ExplanationRequest) (concurrency : Nat) : BatchState :=
  (windows concurrency requests).foldl (processWindow explain requests.length) initialBatchState

/-- The value `batchExplainMoves` actually returns: the successful results. -/
def batchExplainMoves (explain : ExplanationRequest → Except ExplainError MoveExplanation)
    (requests : List ExplanationRequest) (concurrency : Nat) : List MoveExplanation :=
  (batchRun explain requests concurrency).results

/-- The loop body of `GameExplanationService.buildExplanationRequests`
(gameExplanationService.ts) at index `i`: emit a request when the position is
classified and the policy accepts the absolute win-percentage change.
`winPct` is the external `getPositionWinPercentage` collaborator. -/
def requestAt (winPct : PositionEval → ℚ) (settings : ExplanationSettings)
    (fens ucis : List String) (positions : List PositionEval) (i : Nat) :
    Option ExplanationRequest :=
  match positions.get? i, positions.get? (i - 1) with
  | some position, some previousPosition =>
    match position.moveClassification with
    | none => none
    | some classification =>
      if shouldExplainMove settings classification
          |winPct position - winPct previousPosition| then
        some { fen := fens.getD (i - 1) ""
               uciMove := ucis.getD (i - 1) ""
               moveNumber := i
               positionEval := position
               previousPositionEval := some previousPosition
               classification := classification
               opening := position.opening
               previousWinPercentage := winPct previousPosition
               currentWinPercentage := winPct position
               isWhiteMove := i % 2 == 1 }
      else none
  | _, _ => none

/-- Embedding of `GameExplanationService.buildExplanationRequests`: walk the positions from
index 1 and collect the accepted requests in order. -/
def buildExplanationRequests (winPct : PositionEval → ℚ) (settings : ExplanationSettings)
    (fens ucis : List String) (positions : List PositionEval) : List ExplanationRequest :=
  (List.range' 1 (positions.length - 1)).filterMap
    (requestAt winPct settings fens ucis positions)

/-- The statistics record returned by
`GameExplanationService.getExplanationStats`. -/
structure ExplanationStats where
  totalMoves : Int
  movesToExplain : Nat
  byClassification : MoveClassification → Nat

/-- The loop body of `getExplanationStats` at index `i`: count the
classification, and count the move as to-explain when the policy accepts it
(same condition as `requestAt`). -/
def statsStep (winPct : PositionEval → ℚ) (settings : ExplanationSettings)
    (positions : List PositionEval) (st : ExplanationStats) (i : Nat) : ExplanationStats :=
  match positions.get? i, positions.get? (i - 1) with
  | some position, some previousPosition =>
    match position.moveClassification with
    | none => st
    | some classification =>
      let counted : ExplanationStats :=
        { st with byClassification := fun c =>
            if c = classification then st.byClassification c + 1 else st.byClassification c }
      if shouldExplainMove settings classification
          |winPct position - winPct previousPosition| then
        { counted with movesToExplain := counted.movesToExplain + 1 }
      else counted
  | _, _ => st

/-- Embedding of `GameExplanationService.getExplanationStats` (gameExplanationService.ts).
The service it queries carries the same settings as the one that builds
requests, so the settings are a shared parameter. -/
def getExplanationStats (winPct : PositionEval → ℚ) (settings : ExplanationSettings)
    (gameEval : GameEval) : ExplanationStats :=
  (List.range' 1 (gameEval.positions.length - 1)).foldl
    (statsStep winPct settings gameEval.positions)
    { totalMoves := (gameEval.positions.length : Int) - 1
      movesToExplain := 0
      byClassification := fun _ => 0 }

/-- types/explanation.ts `GameExplanations`; the `explanations` record is
modelled as an association list with JavaScript-object assignment
semantics. -/
structure GameExplanations where
  gameId : Nat
  explanations : List (Nat × MoveExplanation)
  generatedAt : String
  version : String

/-- JavaScript record assignment `explanationMap[key] = value`: overwrite the
key if present, else add
it. -/
def recordSet (m : List (Nat × MoveExplanation)) (k : Nat) (v : MoveExplanation) :
    List (Nat × MoveExplanation) :=
  (m.filter fun p => p.1 != k) ++ [(k, v)]

/-- The `explanationMap` building loop of `explainGame`: one entry per
explanation, keyed by its move number. -/
def explanationsToMap (l : List MoveExplanation) : List (Nat × MoveExplanation) :=
  l.foldl (fun m e => recordSet m e.moveNumber e) []

/-- Whether the aggregate contains an entry for move index `k`. -/
def hasExplanationFor (g : GameExplanations) (k : Nat) : Bool :=
  g.explanations.any fun p => p.1 == k

/-- Embedding of `GameExplanationService.explainGame` (gameExplanationService.ts).  The PGN
walk that produces `fens`/`ucis` is the external chess-rules collaborator, so
those lists are parameters; the service always constructs its
`MoveExplainerService` with the default settings, and each request's HTTP
round trip outcome is `fetchOracle`. -/
def explainGame (winPct : PositionEval → ℚ)
    (sanOracle : String → String → Option String) (now : String)
    (jsonParse : String → Option ParsedReply)
    (fetchOracle : ExplanationRequest → FetchResponse)
    (gameId : Nat) (fens ucis : List String) (gameEval : GameEval) : GameExplanations :=
  { gameId := gameId
    explanations := explanationsToMap
      (batchExplainMoves
        (fun r => explainMove DEFAULT_SETTINGS sanOracle now jsonParse (fetchOracle r) r)
        (buildExplanationRequests winPct DEFAULT_SETTINGS fens ucis gameEval.positions)
        3)
    generatedAt := now
    version := "1.0" }

/-- A concrete request with a given move number, used to exercise the batch
dispatcher (C1 witness). -/
def sampleRequest (n : Nat) : ExplanationRequest :=
  { fen := "f", uciMove := "e2e4", moveNumber := n, positionEval := {},
    classification := MoveClassification.Okay,
    previousWinPercentage := 50, currentWinPercentage := 50, isWhiteMove := true }

/-- A concrete explanation with a given move number (C1 witness). -/
def sampleExplanation (n : Nat) : MoveExplanation :=
  { move := "e4", uciMove := "e2e4", moveNumber := n, explanation := "x",
    themes := [], classificationReason := "r", generatedAt := "t", version := "1.0" }

/-- A concrete per-request outcome for the C1 witness: the request with move
number 5 fails with an empty-response error, all others succeed. -/
def sampleExplain (r : ExplanationRequest) : Except ExplainError MoveExplanation :=
  if r.moveNumber == 5 then Except.error ExplainError.emptyResponse
  else Except.ok (sampleExplanation r.moveNumber)

/-- Growth order on accumulator lists: `growsTo l1 l2` holds when `l2` extends
`l1` at the end — nothing already
recorded in `l1` has been removed or reordered. -/
def growsTo {α : Type} (l1 l2 : List α) : Prop :=
  ∃ t, l2 = l1 ++ t

/-- The dispatcher-state invariant behind C9: `completed` counts the trace
entries; the `k`-th snapshot has the fixed total, `completed = k + 1`, and
error/result lists that the current state only extends; and along the trace
both lists only grow. -/
def BatchInv (total : Nat) (s : BatchState) : Prop :=
  s.completed = s.trace.length
    ∧ (∀ k (hk : k < s.trace.length),
        (s.trace[k]).1.total = total
          ∧ (s.trace[k]).1.completed = k + 1
          ∧ growsTo (s.trace[k]).1.errors s.errors
          ∧ growsTo (s.trace[k]).2 s.results)
    ∧ (∀ i j (hi : i < s.trace.length) (hj : j < s.trace.length), i ≤ j →
        growsTo (s.trace[i]).1.errors (s.trace[j]).1.errors
          ∧ growsTo (s.trace[i]).2 (s.trace[j]).2)

/-- A successful chat response used to exercise `explainGame` (C2 witness). -/
def demoFetchResponse : FetchResponse :=
  { ok := true, status := 200, statusText := "OK",
    choices := [{ message := some { content := some "good" } }] }

/-- A two-position trace whose sole move is a Blunder (C2 witness). -/
def demoGameEval : GameEval :=
  ⟨[{}, { moveClassification := some MoveClassification.Blunder }]⟩

/-- C3 (counterexample): the claim says `shouldExplainMove(Excellent, delta)`
returns true iff `explainExcellent` is enabled regardless of `abs(delta)`
(and likewise Opening/`explainOpening`).  With the default settings the flag
is disabled, yet a delta of 10 (at least `minEvalChange = 5`) makes the
function return true for both classifications: the disabled-flag case falls
through to the threshold rule instead of stopping at the classification
rule. -/
theorem shouldExplainMove_not_flag_iff :
    ¬ (shouldExplainMove DEFAULT_SETTINGS MoveClassification.Excellent 10
          = DEFAULT_SETTINGS.explainExcellent
        ∧ shouldExplainMove DEFAULT_SETTINGS MoveClassification.Opening 10
          = DEFAULT_SETTINGS.explainOpening) := by
  decide

/-- C3 (amended): for every settings record and every delta,
`shouldExplainMove(Excellent, delta)` is true iff `explainExcellent` is
enabled or `abs(delta) ≥ minEvalChange`, and `shouldExplainMove(Opening,
delta)` is true iff `explainOpening` is enabled or `abs(delta) ≥
minEvalChange`: a disabled flag does not force a negative answer, it only
defers to the threshold rule. -/
theorem shouldExplainMove_excellent_opening (s : ExplanationSettings) (d : ℚ) :
    shouldExplainMove s MoveClassification.Excellent d
        = (s.explainExcellent || decide (s.minEvalChange ≤ |d|))
      ∧ shouldExplainMove s MoveClassification.Opening d
        = (s.explainOpening || decide (s.minEvalChange ≤ |d|)) := by
  constructor <;>
    · cases hE : s.explainExcellent <;> cases hO : s.explainOpening <;>
        by_cases hT : s.minEvalChange ≤ |d| <;>
      simp [shouldExplainMove, hE, hO, hT, ge_iff_le]

/-- C4: for every settings record and every evaluation delta,
`shouldExplainMove` returns true on each of Blunder, Mistake, Inaccuracy,
Perfect, Splendid and Best, independent of the settings and of the delta. -/
theorem shouldExplainMove_always_true (s : ExplanationSettings) (d : ℚ) :
    shouldExplainMove s MoveClassification.Blunder d = true
      ∧ shouldExplainMove s MoveClassification.Mistake d = true
      ∧ shouldExplainMove s MoveClassification.Inaccuracy d = true
      ∧ shouldExplainMove s MoveClassification.Perfect d = true
      ∧ shouldExplainMove s MoveClassification.Splendid d = true
      ∧ shouldExplainMove s MoveClassification.Best d = true :=
  ⟨rfl, rfl, rfl, rfl, rfl, rfl⟩

/-- C5: with `explainExcellent` disabled, `shouldExplainMove(Excellent, d)`
is false when `abs(d) < minEvalChange` and true when `abs(d) ≥ minEvalChange`;
with the flag enabled it is true for every delta; and the threshold is
inclusive: for a classification that reaches the threshold rule (Okay), a
delta exactly equal to `minEvalChange` is explained. -/
theorem shouldExplainMove_threshold (s : ExplanationSettings) (d : ℚ) :
    (s.explainExcellent = false → |d| < s.minEvalChange →
        shouldExplainMove s MoveClassification.Excellent d = false)
      ∧ (s.explainExcellent = false → s.minEvalChange ≤ |d| →
        shouldExplainMove s MoveClassification.Excellent d = true)
      ∧ (s.explainExcellent = true →
        shouldExplainMove s MoveClassification.Excellent d = true)
      ∧ shouldExplainMove s MoveClassification.Okay s.minEvalChange = true := by
  refine ⟨fun hE hT => ?_, fun hE hT => ?_, fun hE => ?_, ?_⟩
  · simp [shouldExplainMove, hE, ge_iff_le, not_le.mpr hT]
  · simp [shouldExplainMove, hE, ge_iff_le, hT]
  · simp [shouldExplainMove, hE]
  · simp [shouldExplainMove, ge_iff_le, le_abs_self]

/-- C5 (witness): at the default settings, `explainExcellent` is disabled;
delta 3 is below the threshold and is not explained, delta 7 is above and is
explained, and Okay at exactly the threshold is explained. -/
theorem shouldExplainMove_threshold_witness :
    (DEFAULT_SETTINGS.explainExcellent = false
        ∧ |(3 : ℚ)| < DEFAULT_SETTINGS.minEvalChange
        ∧ shouldExplainMove DEFAULT_SETTINGS MoveClassification.Excellent 3 = false)
      ∧ (DEFAULT_SETTINGS.minEvalChange ≤ |(7 : ℚ)|
        ∧ shouldExplainMove DEFAULT_SETTINGS MoveClassification.Excellent 7 = true)
      ∧ shouldExplainMove DEFAULT_SETTINGS MoveClassification.Okay
          DEFAULT_SETTINGS.minEvalChange = true :=
  ⟨⟨rfl, by decide,
      (shouldExplainMove_threshold DEFAULT_SETTINGS 3).1 rfl (by decide)⟩,
    ⟨by decide,
      (shouldExplainMove_threshold DEFAULT_SETTINGS 7).2.1 rfl (by decide)⟩,
    (shouldExplainMove_threshold DEFAULT_SETTINGS 5).2.2.2⟩

/-- C8: a line with a mate distance formats as `"Mate in |N|"` (absolute
distance, and mate wins over a simultaneously present centipawn value);
otherwise a centipawn value formats as `cp / 100` to one decimal place with a
leading `"+"` exactly for positive values; a line with neither field formats
as `"Unknown"`.  The spec's samples: `{cp: 150}` gives `"+1.5"`, `{cp: -40}`
gives `"-0.4"`. -/
theorem formatEvaluation_cases (line : EvalLine) :
    (∀ m, line.mate = some m → formatEvaluation line = "Mate in " ++ toString m.natAbs)
      ∧ (line.mate = none → ∀ cp, line.cp = some cp →
        formatEvaluation line = (if 0 < cp then "+" else "") ++ toFixed1 cp)
      ∧ (line.mate = none → line.cp = none → formatEvaluation line = "Unknown")
      ∧ formatEvaluation { mate := some 3 } = "Mate in 3"
      ∧ formatEvaluation { cp := some 150 } = "+1.5"
      ∧ formatEvaluation { cp := some (-40) } = "-0.4"
      ∧ formatEvaluation {} = "Unknown" := by
  refine ⟨fun m hm => ?_, fun hm cp hcp => ?_, fun hm hcp => ?_,
    by decide, by decide, by decide, by decide⟩
  · simp [formatEvaluation, hm]
  · simp [formatEvaluation, hm, hcp]
  · simp [formatEvaluation, hm, hcp]

/-- C8 (witness): on a line carrying both a (negative) mate distance and a
centipawn value, the mate branch wins and uses the absolute distance. -/
theorem formatEvaluation_cases_witness :
    formatEvaluation { mate := some (-3), cp := some 100 } = "Mate in 3" :=
  (formatEvaluation_cases { mate := some (-3), cp := some 100 }).1 (-3) rfl

/-- Truncation really bounds the length: `s.take n` has at most `n`
characters. -/
theorem string_take_length_le (s : String) (n : Nat) : (s.take n).length ≤ n := by
  rw [String.take_eq]
  show (s.1.take n).length ≤ n
  rw [List.length_take]
  exact Nat.min_le_left _ _

/-- C6: `parseResponse` is total (the embedding returns a `MoveExplanation`
for every raw reply); when the reply fails to decode as a structured object
carrying an `explanation` string, the result's explanation is the raw text
truncated to `maxLength`, its themes are empty and its rationale names the
request's classification; and on every path (decoded or fallback) the
explanation text has length at most `maxLength`. -/
theorem parseResponse_fallback_and_bound (settings : ExplanationSettings)
    (sanOracle : String → String → Option String) (now : String)
    (jsonParse : String → Option ParsedReply)
    (content : String) (request : ExplanationRequest) :
    (jsonParse content = none →
        (parseResponse settings sanOracle now jsonParse content request).explanation
            = content.take settings.maxLength
          ∧ (parseResponse settings sanOracle now jsonParse content request).themes = []
          ∧ (parseResponse settings sanOracle now jsonParse content request).classificationReason
            = "Move classified as " ++ classificationLabel request.classification)
      ∧ (parseResponse settings sanOracle now jsonParse content request).explanation.length
          ≤ settings.maxLength := by
  constructor
  · intro h
    simp [parseResponse, h]
  · cases h : jsonParse content <;>
      · simp only [parseResponse, h]
        exact string_take_length_le _ _

/-- C6 (witness): the spec's sample — the non-decodable raw reply
`"Good developing move."` comes back verbatim (it is shorter than the default
`maxLength` of 150), with empty themes and a rationale naming the Okay
classification, and its length is within the bound. -/
theorem parseResponse_fallback_witness :
    ((parseResponse DEFAULT_SETTINGS (fun _ _ => none) "t" (fun _ => none)
          "Good developing move."
          { fen := "f", uciMove := "e2e4", moveNumber := 1,
            positionEval := {}, classification := MoveClassification.Okay,
            previousWinPercentage := 50, currentWinPercentage := 50,
            isWhiteMove := true }).explanation
        = ("Good developing move." : String).take 150
      ∧ (parseResponse DEFAULT_SETTINGS (fun _ _ => none) "t" (fun _ => none)
          "Good developing move."
          { fen := "f", uciMove := "e2e4", moveNumber := 1,
            positionEval := {}, classification := MoveClassification.Okay,
            previousWinPercentage := 50, currentWinPercentage := 50,
            isWhiteMove := true }).themes = []
      ∧ (parseResponse DEFAULT_SETTINGS (fun _ _ => none) "t" (fun _ => none)
          "Good developing move."
          { fen := "f", uciMove := "e2e4", moveNumber := 1,
            positionEval := {}, classification := MoveClassification.Okay,
            previousWinPercentage := 50, currentWinPercentage := 50,
            isWhiteMove := true }).classificationReason
        = "Move classified as " ++ classificationLabel MoveClassification.Okay)
      ∧ (parseResponse DEFAULT_SETTINGS (fun _ _ => none) "t" (fun _ => none)
          "Good developing move."
          { fen := "f", uciMove := "e2e4", moveNumber := 1,
            positionEval := {}, classification := MoveClassification.Okay,
            previousWinPercentage := 50, currentWinPercentage := 50,
            isWhiteMove := true }).explanation.length ≤ DEFAULT_SETTINGS.maxLength :=
  ⟨(parseResponse_fallback_and_bound DEFAULT_SETTINGS (fun _ _ => none) "t" (fun _ => none)
      "Good developing move."
      { fen := "f", uciMove := "e2e4", moveNumber := 1,
        positionEval := {}, classification := MoveClassification.Okay,
        previousWinPercentage := 50, currentWinPercentage := 50,
        isWhiteMove := true }).1 rfl,
    (parseResponse_fallback_and_bound DEFAULT_SETTINGS (fun _ _ => none) "t" (fun _ => none)
      "Good developing move."
      { fen := "f", uciMove := "e2e4", moveNumber := 1,
        positionEval := {}, classification := MoveClassification.Okay,
        previousWinPercentage := 50, currentWinPercentage := 50,
        isWhiteMove := true }).2⟩

/-- C7: `explainMove` fails with the remote-service error carrying the HTTP
status code and status text exactly when the response has a non-success
status, and (on a successful status) fails with the empty-response error
exactly when the message content is missing or trims to empty; in every
remaining case it succeeds with the parsed reply, so both errors propagate
unchanged and the single supplied round trip is never retried. -/
theorem explainMove_error_conditions (settings : ExplanationSettings)
    (sanOracle : String → String → Option String) (now : String)
    (jsonParse : String → Option ParsedReply)
    (resp : FetchResponse) (request : ExplanationRequest) :
    (explainMove settings sanOracle now jsonParse resp request
          = Except.error (ExplainError.remoteService resp.status resp.statusText)
        ↔ resp.ok = false)
      ∧ (resp.ok = true →
        (explainMove settings sanOracle now jsonParse resp request
            = Except.error ExplainError.emptyResponse
          ↔ (extractContent resp = none ∨ extractContent resp = some "")))
      ∧ (∀ content, resp.ok = true → extractContent resp = some content → content ≠ "" →
        explainMove settings sanOracle now jsonParse resp request
          = Except.ok (parseResponse settings sanOracle now jsonParse content request)) := by
  refine ⟨?_, fun hok => ?_, fun content hok hc hne => ?_⟩
  · cases hok : resp.ok
    · simp [explainMove, hok]
    · cases hc : extractContent resp with
      | none => simp [explainMove, hok, hc]
      | some content =>
        by_cases hne : content = "" <;> simp [explainMove, hok, hc, hne]
  · cases hc : extractContent resp with
    | none => simp [explainMove, hok, hc]
    | some content =>
      by_cases hne : content = "" <;> simp [explainMove, hok, hc, hne]
  · simp [explainMove, hok, hc, hne]

/-- C7 (witness): a 500 response fails with the remote-service error carrying
its status data; a successful response whose only choice has no content fails
with the empty-response error. -/
theorem explainMove_error_conditions_witness :
    (explainMove DEFAULT_SETTINGS (fun _ _ => none) "t" (fun _ => none)
          { ok := false, status := 500, statusText := "Internal Server Error" }
          { fen := "f", uciMove := "e2e4", moveNumber := 1,
            positionEval := {}, classification := MoveClassification.Okay,
            previousWinPercentage := 50, currentWinPercentage := 50,
            isWhiteMove := true }
        = Except.error (ExplainError.remoteService 500 "Internal Server Error"))
      ∧ (explainMove DEFAULT_SETTINGS (fun _ _ => none) "t" (fun _ => none)
          { ok := true, status := 200, statusText := "OK",
            choices := [{ message := some { content := some "  " } }] }
          { fen := "f", uciMove := "e2e4", moveNumber := 1,
            positionEval := {}, classification := MoveClassification.Okay,
            previousWinPercentage := 50, currentWinPercentage := 50,
            isWhiteMove := true }
        = Except.error ExplainError.emptyResponse) :=
  ⟨(explainMove_error_conditions DEFAULT_SETTINGS (fun _ _ => none) "t" (fun _ => none)
      { ok := false, status := 500, statusText := "Internal Server Error" }
      { fen := "f", uciMove := "e2e4", moveNumber := 1,
        positionEval := {}, classification := MoveClassification.Okay,
        previousWinPercentage := 50, currentWinPercentage := 50,
        isWhiteMove := true }).1.mpr rfl,
    ((explainMove_error_conditions DEFAULT_SETTINGS (fun _ _ => none) "t" (fun _ => none)
      { ok := true, status := 200, statusText := "OK",
        choices := [{ message := some { content := some "  " } }] }
      { fen := "f", uciMove := "e2e4", moveNumber := 1,
        positionEval := {}, classification := MoveClassification.Okay,
        previousWinPercentage := 50, currentWinPercentage := 50,
        isWhiteMove := true }).2.1 rfl).mpr (Or.inr (by decide))⟩

/-- C1: a batch of 7 requests at concurrency 3, where exactly the fifth
request fails and the rest succeed.  The trace pins the whole observable run:
`onProgress` fires exactly 7 times (3 for the window `[r1,r2,r3]`, 3 for
`[r4,r5,r6]`, 1 for `[r7]` — the failure's error string is already visible in
every snapshot of its window, from the 4th callback on); the final snapshot's
`completed` is 7; the returned sequence is the 6 successes in order; and the
error list is exactly one entry naming the failed request's move number. -/
theorem batchRun_seven_one_failure
    (explain : ExplanationRequest → Except ExplainError MoveExplanation)
    (r1 r2 r3 r4 r5 r6 r7 : ExplanationRequest)
    (e1 e2 e3 e4 e6 e7 : MoveExplanation) (err : ExplainError)
    (h1 : explain r1 = Except.ok e1) (h2 : explain r2 = Except.ok e2)
    (h3 : explain r3 = Except.ok e3) (h4 : explain r4 = Except.ok e4)
    (h5 : explain r5 = Except.error err)
    (h6 : explain r6 = Except.ok e6) (h7 : explain r7 = Except.ok e7) :
    batchRun explain [r1, r2, r3, r4, r5, r6, r7] 3 =
      { results := [e1, e2, e3, e4, e6, e7]
        errors := ["Move " ++ toString r5.moveNumber ++ ": " ++ err.message]
        completed := 7
        trace :=
          [({ total := 7, completed := 1,
              current := some ("Move " ++ toString e1.moveNumber), errors := [] }, [e1]),
           ({ total := 7, completed := 2,
              current := some ("Move " ++ toString e2.moveNumber), errors := [] }, [e1, e2]),
           ({ total := 7, completed := 3,
              current := some ("Move " ++ toString e3.moveNumber), errors := [] },
             [e1, e2, e3]),
           ({ total := 7, completed := 4,
              current := some ("Move " ++ toString e4.moveNumber),
              errors := ["Move " ++ toString r5.moveNumber ++ ": " ++ err.message] },
             [e1, e2, e3, e4]),
           ({ total := 7, completed := 5, current := none,
              errors := ["Move " ++ toString r5.moveNumber ++ ": " ++ err.message] },
             [e1, e2, e3, e4]),
           ({ total := 7, completed := 6,
              current := some ("Move " ++ toString e6.moveNumber),
              errors := ["Move " ++ toString r5.moveNumber ++ ": " ++ err.message] },
             [e1, e2, e3, e4, e6]),
           ({ total := 7, completed := 7,
              current := some ("Move " ++ toString e7.moveNumber),
              errors := ["Move " ++ toString r5.moveNumber ++ ": " ++ err.message] },
             [e1, e2, e3, e4, e6, e7])] } := by
  simp [batchRun, windows, windowsGo, processWindow, emitItem, runItem,
    initialBatchState, h1, h2, h3, h4, h5, h6, h7]



/-- C1 (witness): the concrete 7-request run with request 5 failing produces
exactly 7 trace entries (3 per full window, 1 for the last), final `completed`
7, 6 ordered successes, and the single error string `"Move 5: ..."`. -/
theorem batchRun_seven_one_failure_witness :
    batchRun sampleExplain
        [sampleRequest 1, sampleRequest 2, sampleRequest 3, sampleRequest 4,
         sampleRequest 5, sampleRequest 6, sampleRequest 7] 3 =
      { results := [sampleExplanation 1, sampleExplanation 2, sampleExplanation 3,
          sampleExplanation 4, sampleExplanation 6, sampleExplanation 7]
        errors := ["Move " ++ toString (sampleRequest 5).moveNumber ++ ": "
          ++ ExplainError.emptyResponse.message]
        completed := 7
        trace :=
          [({ total := 7, completed := 1,
              current := some ("Move " ++ toString (sampleExplanation 1).moveNumber),
              errors := [] }, [sampleExplanation 1]),
           ({ total := 7, completed := 2,
              current := some ("Move " ++ toString (sampleExplanation 2).moveNumber),
              errors := [] }, [sampleExplanation 1, sampleExplanation 2]),
           ({ total := 7, completed := 3,
              current := some ("Move " ++ toString (sampleExplanation 3).moveNumber),
              errors := [] },
             [sampleExplanation 1, sampleExplanation 2, sampleExplanation 3]),
           ({ total := 7, completed := 4,
              current := some ("Move " ++ toString (sampleExplanation 4).moveNumber),
              errors := ["Move " ++ toString (sampleRequest 5).moveNumber ++ ": "
                ++ ExplainError.emptyResponse.message] },
             [sampleExplanation 1, sampleExplanation 2, sampleExplanation 3,
              sampleExplanation 4]),
           ({ total := 7, completed := 5, current := none,
              errors := ["Move " ++ toString (sampleRequest 5).moveNumber ++ ": "
                ++ ExplainError.emptyResponse.message] },
             [sampleExplanation 1, sampleExplanation 2, sampleExplanation 3,
              sampleExplanation 4]),
           ({ total := 7, completed := 6,
              current := some ("Move " ++ toString (sampleExplanation 6).moveNumber),
              errors := ["Move " ++ toString (sampleRequest 5).moveNumber ++ ": "
                ++ ExplainError.emptyResponse.message] },
             [sampleExplanation 1, sampleExplanation 2, sampleExplanation 3,
              sampleExplanation 4, sampleExplanation 6]),
           ({ total := 7, completed := 7,
              current := some ("Move " ++ toString (sampleExplanation 7).moveNumber),
              errors := ["Move " ++ toString (sampleRequest 5).moveNumber ++ ": "
                ++ ExplainError.emptyResponse.message] },
             [sampleExplanation 1, sampleExplanation 2, sampleExplanation 3,
              sampleExplanation 4, sampleExplanation 6, sampleExplanation 7])] } :=
  batchRun_seven_one_failure sampleExplain
    (sampleRequest 1) (sampleRequest 2) (sampleRequest 3) (sampleRequest 4)
    (sampleRequest 5) (sampleRequest 6) (sampleRequest 7)
    (sampleExplanation 1) (sampleExplanation 2) (sampleExplanation 3)
    (sampleExplanation 4) (sampleExplanation 6) (sampleExplanation 7)
    ExplainError.emptyResponse
    rfl rfl rfl rfl rfl rfl rfl



theorem growsTo_refl {α : Type} (l : List α) : growsTo l l :=
  ⟨[], (List.append_nil l).symm⟩

theorem growsTo_append {α : Type} (l t : List α) : growsTo l (l ++ t) :=
  ⟨t, rfl⟩

theorem growsTo_trans {α : Type} {a b c : List α}
    (h1 : growsTo a b) (h2 : growsTo b c) : growsTo a c := by
  obtain ⟨t1, rfl⟩ := h1
  obtain ⟨t2, rfl⟩ := h2
  exact ⟨t1 ++ t2, List.append_assoc a t1 t2⟩



theorem batchInv_initial (total : Nat) : BatchInv total initialBatchState := by
  refine ⟨rfl, fun k hk => ?_, fun i j hi hj _ => ?_⟩
  · simp [initialBatchState] at hk
  · simp [initialBatchState] at hi

theorem batchInv_emitItem (total : Nat) (s : BatchState)
    (res : Option MoveExplanation) (h : BatchInv total s) :
    BatchInv total (emitItem total s res) := by
  obtain ⟨hcomp, hone, hpair⟩ := h
  have hres : growsTo s.results
      (match res with
        | some e => s.results ++ [e]
        | none => s.results) := by
    cases res
    · exact growsTo_refl _
    · exact growsTo_append _ _
  have hlen : (emitItem total s res).trace.length = s.trace.length + 1 := by
    simp [emitItem]
  have hget_old : ∀ k (hk : k < s.trace.length)
      (hk2 : k < (emitItem total s res).trace.length),
      (emitItem total s res).trace[k] = s.trace[k] := by
    intro k hk hk2
    simp only [emitItem]
    exact List.getElem_append_left hk
  have hget_new : ∀ (hk2 : s.trace.length < (emitItem total s res).trace.length),
      (emitItem total s res).trace[s.trace.length]
      = ({ total := total, completed := s.completed + 1,
            current := res.map fun e => "Move " ++ toString e.moveNumber,
            errors := s.errors },
          match res with
          | some e => s.results ++ [e]
          | none => s.results) := by
    intro hk2
    simp only [emitItem]
    exact List.getElem_concat_length _ _ _ rfl _
  refine ⟨?_, fun k hk => ?_, fun i j hi hj hij => ?_⟩
  · rw [hlen]
    simp only [emitItem]
    omega
  · rcases Nat.lt_succ_iff_lt_or_eq.mp (by rw [hlen] at hk; exact hk) with hk' | hk'
    · rw [hget_old k hk']
      obtain ⟨ht, hc, he, hr⟩ := hone k hk'
      refine ⟨ht, hc, ?_, ?_⟩
      · exact he
      · exact growsTo_trans hr hres
    · subst hk'
      rw [hget_new]
      exact ⟨rfl, by rw [hcomp], growsTo_refl _, growsTo_refl _⟩
  · have hj' := hj
    rw [hlen] at hj'
    rcases Nat.lt_succ_iff_lt_or_eq.mp hj' with hj2 | hj2
    · have hi2 : i < s.trace.length := lt_of_le_of_lt hij hj2
      rw [hget_old i hi2, hget_old j hj2]
      exact hpair i j hi2 hj2 hij
    · subst hj2
      rcases Nat.lt_succ_iff_lt_or_eq.mp (by rw [hlen] at hi; exact hi) with hi2 | hi2
      · rw [hget_old i hi2, hget_new]
        obtain ⟨_, _, he, hr⟩ := hone i hi2
        exact ⟨he, growsTo_trans hr hres⟩
      · subst hi2
        rw [hget_new]
        exact ⟨growsTo_refl _, growsTo_refl _⟩

theorem batchInv_errorsExtend (total : Nat) (s : BatchState) (es : List String)
    (h : BatchInv total s) : BatchInv total { s with errors := s.errors ++ es } := by
  obtain ⟨hcomp, hone, hpair⟩ := h
  refine ⟨hcomp, fun k hk => ?_, hpair⟩
  obtain ⟨ht, hc, he, hr⟩ := hone k hk
  exact ⟨ht, hc, growsTo_trans he (growsTo_append _ _), hr⟩

theorem batchInv_foldEmit (total : Nat)
    (items : List (Option MoveExplanation × Option String)) :
    ∀ s : BatchState, BatchInv total s →
      BatchInv total (items.foldl (fun st it => emitItem total st it.1) s) := by
  induction items with
  | nil => intro s h; exact h
  | cons it rest ih =>
      intro s h
      exact ih _ (batchInv_emitItem total s it.1 h)

theorem batchInv_processWindow
    (explain : ExplanationRequest → Except ExplainError MoveExplanation)
    (total : Nat) (s : BatchState) (batch : List ExplanationRequest)
    (h : BatchInv total s) : BatchInv total (processWindow explain total s batch) := by
  simp only [processWindow]
  exact batchInv_foldEmit total _ _ (batchInv_errorsExtend total s _ h)

theorem batchInv_foldWindows
    (explain : ExplanationRequest → Except ExplainError MoveExplanation)
    (total : Nat) (ws : List (List ExplanationRequest)) :
    ∀ s : BatchState, BatchInv total s →
      BatchInv total (ws.foldl (processWindow explain total) s) := by
  induction ws with
  | nil => intro s h; exact h
  | cons w rest ih =>
      intro s h
      exact ih _ (batchInv_processWindow explain total s w h)

theorem batchInv_batchRun
    (explain : ExplanationRequest → Except ExplainError MoveExplanation)
    (requests : List ExplanationRequest) (c : Nat) :
    BatchInv requests.length (batchRun explain requests c) :=
  batchInv_foldWindows explain requests.length (windows c requests)
    initialBatchState (batchInv_initial requests.length)

theorem trace_length_foldEmit (total : Nat)
    (items : List (Option MoveExplanation × Option String)) :
    ∀ s : BatchState,
      ((items.foldl (fun st it => emitItem total st it.1) s).trace).length
        = s.trace.length + items.length := by
  induction items with
  | nil => intro s; simp
  | cons it rest ih =>
      intro s
      rw [List.foldl_cons, ih]
      simp [emitItem]
      omega

theorem trace_length_processWindow
    (explain : ExplanationRequest → Except ExplainError MoveExplanation)
    (total : Nat) (s : BatchState) (batch : List ExplanationRequest) :
    (processWindow explain total s batch).trace.length
      = s.trace.length + batch.length := by
  simp only [processWindow]
  rw [trace_length_foldEmit]
  simp

theorem trace_length_foldWindows
    (explain : ExplanationRequest → Except ExplainError MoveExplanation)
    (total : Nat) (ws : List (List ExplanationRequest)) :
    ∀ s : BatchState,
      ((ws.foldl (processWindow explain total) s).trace).length
        = s.trace.length + (ws.map List.length).sum := by
  induction ws with
  | nil => intro s; simp
  | cons w rest ih =>
      intro s
      rw [List.foldl_cons, ih, trace_length_processWindow]
      simp
      omega

theorem windowsGo_join {α : Type} (c : Nat) :
    ∀ fuel : Nat, ∀ xs : List α, xs.length ≤ fuel → (windowsGo c fuel xs).flatten = xs := by
  intro fuel
  induction fuel with
  | zero =>
      intro xs h
      cases xs with
      | nil => rfl
      | cons x rest => simp at h
  | succ fuel ih =>
      intro xs h
      cases xs with
      | nil => rfl
      | cons x rest =>
          simp only [windowsGo, List.flatten]
          rw [ih (rest.drop (c - 1)) (by simp at h ⊢; omega)]
          simp [List.take_append_drop]

theorem windows_join {α : Type} (c : Nat) (xs : List α) (hc : 0 < c) :
    (windows c xs).flatten = xs := by
  unfold windows
  rw [if_neg (by omega)]
  exact windowsGo_join c xs.length xs le_rfl

theorem batchRun_trace_length
    (explain : ExplanationRequest → Except ExplainError MoveExplanation)
    (requests : List ExplanationRequest) (c : Nat) (hc : 0 < c) :
    (batchRun explain requests c).trace.length = requests.length := by
  unfold batchRun
  rw [trace_length_foldWindows]
  have : ((windows c requests).map List.length).sum = (windows c requests).flatten.length := by
    rw [List.length_flatten]
  rw [this, windows_join c requests hc]
  simp [initialBatchState]

/-- C9: within one `batchExplainMoves` run (any requests, any positive
concurrency), the progress snapshots satisfy: `total` is constant and equal to
the request count, `completed` never exceeds `total` and is monotonically
non-decreasing from one snapshot to the next, and both the error list and the
accumulated result list only grow — an error recorded or a success appended
at an earlier snapshot is present, in place, in every later one. -/
theorem batch_progress_invariants
    (explain : ExplanationRequest → Except ExplainError MoveExplanation)
    (requests : List ExplanationRequest) (c : Nat) (hc : 0 < c) :
    (∀ k (hk : k < (batchRun explain requests c).trace.length),
        ((batchRun explain requests c).trace[k]).1.total = requests.length
          ∧ ((batchRun explain requests c).trace[k]).1.completed
            ≤ ((batchRun explain requests c).trace[k]).1.total)
      ∧ (∀ i j (hi : i < (batchRun explain requests c).trace.length)
          (hj : j < (batchRun explain requests c).trace.length), i ≤ j →
        ((batchRun explain requests c).trace[i]).1.completed
            ≤ ((batchRun explain requests c).trace[j]).1.completed
          ∧ growsTo ((batchRun explain requests c).trace[i]).1.errors
            ((batchRun explain requests c).trace[j]).1.errors
          ∧ growsTo ((batchRun explain requests c).trace[i]).2
            ((batchRun explain requests c).trace[j]).2) := by
  obtain ⟨hcomp, hone, hpair⟩ := batchInv_batchRun explain requests c
  have hlen := batchRun_trace_length explain requests c hc
  constructor
  · intro k hk
    obtain ⟨ht, hc', _, _⟩ := hone k hk
    refine ⟨ht, ?_⟩
    rw [ht, hc']
    rw [hlen] at hk
    omega
  · intro i j hi hj hij
    obtain ⟨hti, hci, _, _⟩ := hone i hi
    obtain ⟨htj, hcj, _, _⟩ := hone j hj
    obtain ⟨he, hr⟩ := hpair i j hi hj hij
    refine ⟨?_, he, hr⟩
    rw [hci, hcj]
    omega

/-- C9 (witness): the invariants instantiated on the concrete 7-request run
of the C1 witness, at concurrency 3. -/
theorem batch_progress_invariants_witness :
    0 < 3
      ∧ ((∀ k (hk : k < (batchRun sampleExplain
            [sampleRequest 1, sampleRequest 2, sampleRequest 3, sampleRequest 4,
             sampleRequest 5, sampleRequest 6, sampleRequest 7] 3).trace.length),
          ((batchRun sampleExplain
            [sampleRequest 1, sampleRequest 2, sampleRequest 3, sampleRequest 4,
             sampleRequest 5, sampleRequest 6, sampleRequest 7] 3).trace[k]).1.total
              = ([sampleRequest 1, sampleRequest 2, sampleRequest 3, sampleRequest 4,
                sampleRequest 5, sampleRequest 6, sampleRequest 7] :
                List ExplanationRequest).length
            ∧ ((batchRun sampleExplain
              [sampleRequest 1, sampleRequest 2, sampleRequest 3, sampleRequest 4,
               sampleRequest 5, sampleRequest 6, sampleRequest 7] 3).trace[k]).1.completed
              ≤ ((batchRun sampleExplain
              [sampleRequest 1, sampleRequest 2, sampleRequest 3, sampleRequest 4,
               sampleRequest 5, sampleRequest 6, sampleRequest 7] 3).trace[k]).1.total)
        ∧ (∀ i j (hi : i < (batchRun sampleExplain
            [sampleRequest 1, sampleRequest 2, sampleRequest 3, sampleRequest 4,
             sampleRequest 5, sampleRequest 6, sampleRequest 7] 3).trace.length)
            (hj : j < (batchRun sampleExplain
            [sampleRequest 1, sampleRequest 2, sampleRequest 3, sampleRequest 4,
             sampleRequest 5, sampleRequest 6, sampleRequest 7] 3).trace.length), i ≤ j →
          ((batchRun sampleExplain
            [sampleRequest 1, sampleRequest 2, sampleRequest 3, sampleRequest 4,
             sampleRequest 5, sampleRequest 6, sampleRequest 7] 3).trace[i]).1.completed
              ≤ ((batchRun sampleExplain
            [sampleRequest 1, sampleRequest 2, sampleRequest 3, sampleRequest 4,
             sampleRequest 5, sampleRequest 6, sampleRequest 7] 3).trace[j]).1.completed
            ∧ growsTo ((batchRun sampleExplain
              [sampleRequest 1, sampleRequest 2, sampleRequest 3, sampleRequest 4,
               sampleRequest 5, sampleRequest 6, sampleRequest 7] 3).trace[i]).1.errors
              ((batchRun sampleExplain
              [sampleRequest 1, sampleRequest 2, sampleRequest 3, sampleRequest 4,
               sampleRequest 5, sampleRequest 6, sampleRequest 7] 3).trace[j]).1.errors
            ∧ growsTo ((batchRun sampleExplain
              [sampleRequest 1, sampleRequest 2, sampleRequest 3, sampleRequest 4,
               sampleRequest 5, sampleRequest 6, sampleRequest 7] 3).trace[i]).2
              ((batchRun sampleExplain
              [sampleRequest 1, sampleRequest 2, sampleRequest 3, sampleRequest 4,
               sampleRequest 5, sampleRequest 6, sampleRequest 7] 3).trace[j]).2)) :=
  ⟨by decide,
    batch_progress_invariants sampleExplain
      [sampleRequest 1, sampleRequest 2, sampleRequest 3, sampleRequest 4,
       sampleRequest 5, sampleRequest 6, sampleRequest 7] 3 (by decide)⟩

theorem mem_results_foldEmit (total : Nat)
    (items : List (Option MoveExplanation × Option String)) :
    ∀ s : BatchState, ∀ e : MoveExplanation,
      e ∈ (items.foldl (fun st it => emitItem total st it.1) s).results →
        e ∈ s.results ∨ ∃ it ∈ items, it.1 = some e := by
  induction items with
  | nil =>
      intro s e h
      exact Or.inl h
  | cons it rest ih =>
      intro s e h
      rcases ih _ e h with h1 | ⟨it2, hmem, heq⟩
      · have : e ∈ (emitItem total s it.1).results → e ∈ s.results ∨ it.1 = some e := by
          intro hm
          cases hres : it.1 with
          | none => simp [emitItem, hres] at hm; exact Or.inl hm
          | some e2 =>
              simp [emitItem, hres] at hm
              rcases hm with hm | hm
              · exact Or.inl hm
              · exact Or.inr (congrArg some hm.symm)
        rcases this h1 with h2 | h2
        · exact Or.inl h2
        · exact Or.inr ⟨it, List.mem_cons_self it rest, h2⟩
      · exact Or.inr ⟨it2, List.mem_cons_of_mem it hmem, heq⟩

theorem mem_results_processWindow
    (explain : ExplanationRequest → Except ExplainError MoveExplanation)
    (total : Nat) (s : BatchState) (batch : List ExplanationRequest)
    (e : MoveExplanation) (h : e ∈ (processWindow explain total s batch).results) :
    e ∈ s.results ∨ ∃ r ∈ batch, explain r = Except.ok e := by
  simp only [processWindow] at h
  rcases mem_results_foldEmit total _ _ e h with h1 | ⟨it, hmem, heq⟩
  · exact Or.inl h1
  · obtain ⟨r, hr, hit⟩ := List.mem_map.mp hmem
    refine Or.inr ⟨r, hr, ?_⟩
    cases hex : explain r with
    | ok e2 =>
        rw [← hit] at heq
        simp [runItem, hex] at heq
        exact congrArg Except.ok heq
    | error err =>
        rw [← hit] at heq
        simp [runItem, hex] at heq

theorem mem_windowsGo_subset {α : Type} (c : Nat) :
    ∀ fuel : Nat, ∀ xs : List α, ∀ w ∈ windowsGo c fuel xs, ∀ r ∈ w, r ∈ xs := by
  intro fuel
  induction fuel with
  | zero =>
      intro xs w hw
      cases xs <;> simp [windowsGo] at hw
  | succ fuel ih =>
      intro xs w hw r hr
      cases xs with
      | nil => simp [windowsGo] at hw
      | cons x rest =>
          simp only [windowsGo, List.mem_cons] at hw
          rcases hw with hw | hw
          · subst hw
            rcases List.mem_cons.mp hr with hr | hr
            · exact hr ▸ List.mem_cons_self x rest
            · exact List.mem_cons_of_mem x (List.mem_of_mem_take hr)
          · exact List.mem_cons_of_mem x
              (List.mem_of_mem_drop (ih (rest.drop (c - 1)) w hw r hr))

theorem mem_results_foldWindows
    (explain : ExplanationRequest → Except ExplainError MoveExplanation)
    (total : Nat) (ws : List (List ExplanationRequest)) :
    ∀ s : BatchState, ∀ e : MoveExplanation,
      e ∈ (ws.foldl (processWindow explain total) s).results →
        e ∈ s.results ∨ ∃ w ∈ ws, ∃ r ∈ w, explain r = Except.ok e := by
  induction ws with
  | nil =>
      intro s e h
      exact Or.inl h
  | cons w rest ih =>
      intro s e h
      rcases ih _ e h with h1 | ⟨w2, hw2, hr⟩
      · rcases mem_results_processWindow explain total s w e h1 with h2 | ⟨r, hr, hok⟩
        · exact Or.inl h2
        · exact Or.inr ⟨w, List.mem_cons_self w rest, r, hr, hok⟩
      · exact Or.inr ⟨w2, List.mem_cons_of_mem w hw2, hr⟩

/-- Every explanation in the dispatcher's returned list comes from a request
of the input list on which the per-item call succeeded. -/
theorem mem_batchExplainMoves
    (explain : ExplanationRequest → Except ExplainError MoveExplanation)
    (requests : List ExplanationRequest) (c : Nat) (e : MoveExplanation)
    (h : e ∈ batchExplainMoves explain requests c) :
    ∃ r ∈ requests, explain r = Except.ok e := by
  simp only [batchExplainMoves, batchRun] at h
  rcases mem_results_foldWindows explain requests.length _ initialBatchState e h with
    h1 | ⟨w, hw, r, hr, hok⟩
  · simp [initialBatchState] at h1
  · refine ⟨r, ?_, hok⟩
    simp only [windows] at hw
    by_cases hc : c = 0
    · rw [if_pos hc] at hw
      simp at hw
    · rw [if_neg hc] at hw
      exact mem_windowsGo_subset c requests.length requests w hw r hr

/-- The output of `parseResponse` is always tagged with the request's move
number. -/
theorem parseResponse_moveNumber (settings : ExplanationSettings)
    (sanOracle : String → String → Option String) (now : String)
    (jsonParse : String → Option ParsedReply)
    (content : String) (request : ExplanationRequest) :
    (parseResponse settings sanOracle now jsonParse content request).moveNumber
      = request.moveNumber := by
  cases h : jsonParse content <;> simp [parseResponse, h]

/-- A successful `explainMove` carries the request's move number. -/
theorem explainMove_ok_moveNumber (settings : ExplanationSettings)
    (sanOracle : String → String → Option String) (now : String)
    (jsonParse : String → Option ParsedReply)
    (resp : FetchResponse) (request : ExplanationRequest) (e : MoveExplanation)
    (h : explainMove settings sanOracle now jsonParse resp request = Except.ok e) :
    e.moveNumber = request.moveNumber := by
  by_cases hok : resp.ok = false
  · simp [explainMove, hok] at h
  · cases hc : extractContent resp with
    | none => simp [explainMove, hok, hc] at h
    | some content =>
        by_cases hne : content = ""
        · simp [explainMove, hok, hc, hne] at h
        · simp [explainMove, hok, hc, hne] at h
          rw [← h]
          exact parseResponse_moveNumber settings sanOracle now jsonParse content request

/-- Every emitted request records its source index: it sits at an index `i ≥ 1`
of the positions list, that position is classified, and the policy accepted
the absolute win-percentage change against the previous position. -/
theorem mem_buildExplanationRequests (winPct : PositionEval → ℚ)
    (settings : ExplanationSettings) (fens ucis : List String)
    (positions : List PositionEval) (r : ExplanationRequest)
    (h : r ∈ buildExplanationRequests winPct settings fens ucis positions) :
    1 ≤ r.moveNumber
      ∧ ∃ p prev classification,
        positions[r.moveNumber]? = some p
          ∧ positions[r.moveNumber - 1]? = some prev
          ∧ p.moveClassification = some classification
          ∧ shouldExplainMove settings classification |winPct p - winPct prev| = true := by
  simp only [buildExplanationRequests] at h
  obtain ⟨i, hi, hr⟩ := List.mem_filterMap.mp h
  have hi1 : 1 ≤ i := by
    have := List.mem_range'.mp hi
    omega
  cases hp : positions[i]? with
  | none => simp [requestAt, hp] at hr
  | some p =>
      cases hprev : positions[i - 1]? with
      | none => simp [requestAt, hp, hprev] at hr
      | some prev =>
          cases hcl : p.moveClassification with
          | none => simp [requestAt, hp, hprev, hcl] at hr
          | some classification =>
              by_cases hok : shouldExplainMove settings classification
                  |winPct p - winPct prev| = true
              · simp only [requestAt, List.get?_eq_getElem?, hp, hprev, hcl, hok, if_true,
                  Option.some.injEq] at hr
                subst hr
                exact ⟨hi1, p, prev, classification, hp, hprev, hcl, hok⟩
              · simp [requestAt, hp, hprev, hcl, hok] at hr

theorem mem_recordSet (m : List (Nat × MoveExplanation)) (k : Nat)
    (v : MoveExplanation) (p : Nat × MoveExplanation) (h : p ∈ recordSet m k v) :
    p ∈ m ∨ p = (k, v) := by
  simp only [recordSet] at h
  rcases List.mem_append.mp h with h1 | h1
  · exact Or.inl (List.mem_of_mem_filter h1)
  · exact Or.inr (by simpa using h1)

theorem mem_explanationsToMap_fold (l : List MoveExplanation) :
    ∀ m : List (Nat × MoveExplanation), ∀ p : Nat × MoveExplanation,
      p ∈ l.foldl (fun m e => recordSet m e.moveNumber e) m →
        p ∈ m ∨ ∃ e ∈ l, p.1 = e.moveNumber := by
  induction l with
  | nil =>
      intro m p h
      exact Or.inl h
  | cons e rest ih =>
      intro m p h
      rcases ih _ p h with h1 | ⟨e2, he2, hp⟩
      · rcases mem_recordSet m e.moveNumber e p h1 with h2 | h2
        · exact Or.inl h2
        · exact Or.inr ⟨e, List.mem_cons_self e rest, by rw [h2]⟩
      · exact Or.inr ⟨e2, List.mem_cons_of_mem e he2, hp⟩

/-- C2: for every game evaluation trace and move history, the aggregate
returned by `explainGame` never contains an entry keyed by a move index whose
position lacks a classification or whose (classification, evaluation change)
the policy rejects — stated in the contrapositive: every present key points
at a position at index at least 1 that is classified and that
`shouldExplainMove` (with the service's default settings) accepts for the
absolute win-percentage change. -/
theorem explainGame_keys_respect_policy
    (winPct : PositionEval → ℚ) (sanOracle : String → String → Option String)
    (now : String) (jsonParse : String → Option ParsedReply)
    (fetchOracle : ExplanationRequest → FetchResponse)
    (gameId : Nat) (fens ucis : List String) (gameEval : GameEval) (k : Nat)
    (hk : hasExplanationFor
        (explainGame winPct sanOracle now jsonParse fetchOracle gameId fens ucis gameEval) k
      = true) :
    1 ≤ k ∧ ∃ p prev classification,
      gameEval.positions[k]? = some p
        ∧ gameEval.positions[k - 1]? = some prev
        ∧ p.moveClassification = some classification
        ∧ shouldExplainMove DEFAULT_SETTINGS classification |winPct p - winPct prev| = true := by
  simp only [hasExplanationFor, explainGame, List.any_eq_true] at hk
  obtain ⟨pr, hpr, hbeq⟩ := hk
  have hpk : pr.1 = k := by simpa using hbeq
  simp only [explanationsToMap] at hpr
  rcases mem_explanationsToMap_fold _ [] pr hpr with h0 | ⟨e, he, hmn⟩
  · simp at h0
  · obtain ⟨r, hrmem, hok⟩ := mem_batchExplainMoves _ _ 3 e he
    have hmv := explainMove_ok_moveNumber DEFAULT_SETTINGS sanOracle now jsonParse
      (fetchOracle r) r e hok
    obtain ⟨h1, p, prev, classification, hp, hprev, hcl, hsh⟩ :=
      mem_buildExplanationRequests winPct DEFAULT_SETTINGS fens ucis gameEval.positions r hrmem
    have hk2 : k = r.moveNumber := by rw [← hpk, hmn, hmv]
    subst hk2
    exact ⟨h1, p, prev, classification, hp, hprev, hcl, hsh⟩



/-- C2 (witness): on the concrete trace, move index 1 is present in the
aggregate, and indeed its position is classified (Blunder) and accepted by
the policy. -/
theorem explainGame_keys_respect_policy_witness :
    hasExplanationFor
        (explainGame (fun _ => 50) (fun _ _ => none) "t" (fun _ => none)
          (fun _ => demoFetchResponse) 1 ["f0", "f1"] ["e2e4"] demoGameEval) 1 = true
      ∧ (1 ≤ 1 ∧ ∃ p prev classification,
          demoGameEval.positions[1]? = some p
            ∧ demoGameEval.positions[1 - 1]? = some prev
            ∧ p.moveClassification = some classification
            ∧ shouldExplainMove DEFAULT_SETTINGS classification
                |(50 : ℚ) - (50 : ℚ)| = true) :=
  ⟨by decide,
    explainGame_keys_respect_policy (fun _ => 50) (fun _ _ => none) "t" (fun _ => none)
      (fun _ => demoFetchResponse) 1 ["f0", "f1"] ["e2e4"] demoGameEval 1 (by decide)⟩

theorem statsFold_movesToExplain (winPct : PositionEval → ℚ)
    (settings : ExplanationSettings) (fens ucis : List String)
    (positions : List PositionEval) :
    ∀ l : List Nat, ∀ st : ExplanationStats,
      (l.foldl (statsStep winPct settings positions) st).movesToExplain
        = st.movesToExplain
          + (l.filterMap (requestAt winPct settings fens ucis positions)).length := by
  intro l
  induction l with
  | nil => intro st; simp
  | cons i rest ih =>
      intro st
      rw [List.foldl_cons, ih]
      have hstep : (statsStep winPct settings positions st i).movesToExplain
          = st.movesToExplain
            + if (requestAt winPct settings fens ucis positions i).isSome then 1 else 0 := by
        cases hp : positions[i]? with
        | none => simp [statsStep, requestAt, hp]
        | some p =>
            cases hprev : positions[i - 1]? with
            | none => simp [statsStep, requestAt, hp, hprev]
            | some prev =>
                cases hcl : p.moveClassification with
                | none => simp [statsStep, requestAt, hp, hprev, hcl]
                | some classification =>
                    by_cases hok : shouldExplainMove settings classification
                        |winPct p - winPct prev| = true
                    · simp [statsStep, requestAt, hp, hprev, hcl, hok]
                    · simp [statsStep, requestAt, hp, hprev, hcl, hok]
      rw [hstep]
      cases hreq : requestAt winPct settings fens ucis positions i with
      | none => simp [List.filterMap_cons, hreq]
      | some r =>
          simp [List.filterMap_cons, hreq]
          omega

/-- C10: for every game evaluation trace (and any `fens`/`uciMoves` lists),
`getExplanationStats` counts exactly the moves for which
`buildExplanationRequests` emits a request: both walk the positions from
index 1, skip unclassified positions, and consult the same
`shouldExplainMove` decision on the same absolute win-percentage change. -/
theorem getExplanationStats_matches_requests (winPct : PositionEval → ℚ)
    (settings : ExplanationSettings) (fens ucis : List String) (gameEval : GameEval) :
    (getExplanationStats winPct settings gameEval).movesToExplain
      = (buildExplanationRequests winPct settings fens ucis gameEval.positions).length := by
  unfold getExplanationStats buildExplanationRequests
  rw [statsFold_movesToExplain winPct settings fens ucis gameEval.positions]
  simp
